import Mathlib

/-!
# CESIzen authentication subsystem — formal model

A shallow embedding of the CESIzen auth subsystem
(`src/backend/auth_service/main.py`,
`src/backend/auth_service/database/user_repository.py`, and the token
validators of `src/backend/info_service/main.py` and
`src/backend/user_service/main.py`), together with theorems settling the
specification claims.

Python dictionaries are modelled as insertion-ordered association lists
(`Doc`) with first-match lookup and in-place replacement on assignment,
matching CPython `dict` semantics.  The MongoDB collection is a list of
documents in insertion order; `find_one` returns the first match,
`update_one`/`delete_one` affect the first match.  The bcrypt password
hash is an arbitrary parameter `hash : String → String`, so every theorem
holds for every hashing function.  JWTs are modelled symbolically: a token
records the claim payload plus the secret and algorithm it was signed
with, and verification succeeds exactly when both match the verifier's.
-/

namespace CESIzen

/-- A value of a Python dict field: string, boolean, or `None`. -/
inductive Value
  | str (s : String)
  | bool (b : Bool)
  | none
  deriving DecidableEq, Repr

/-- A Python dict / Mongo document: insertion-ordered association list. -/
abbrev Doc := List (String × Value)

/-- `d[k]` lookup / `k in d`: first (and, for a real dict, only) match. -/
def Doc.find : Doc → String → Option Value
  | [], _ => Option.none
  | p :: rest, k => if p.1 = k then some p.2 else Doc.find rest k

/-- `d[k] = v` assignment: replace in place if present, else append. -/
def Doc.insert (k : String) (v : Value) : Doc → Doc
  | [] => [(k, v)]
  | p :: rest =>
    if p.1 = k then (k, v) :: rest else p :: Doc.insert k v rest

/-- `d.pop(k)` (the removal part): drop every pair with key `k`. -/
def Doc.erase (k : String) (d : Doc) : Doc :=
  d.filter (fun p => p.1 ≠ k)

/-- Mongo `$set`: apply each update field to the document in order. -/
def Doc.applySet (upd : Doc) (d : Doc) : Doc :=
  List.foldl (fun acc p => Doc.insert p.1 p.2 acc) d upd

/-- The `username` attribute of a stored user document (pydantic `UserInDB`
requires it; `""` stands for the unreachable missing case). -/
def Doc.username (d : Doc) : String :=
  match d.find "username" with
  | some (Value.str s) => s
  | _ => ""

/-- The `role` attribute; pydantic `UserBase` defaults it to `"user"`. -/
def Doc.role (d : Doc) : String :=
  match d.find "role" with
  | some (Value.str s) => s
  | _ => "user"

/-- The `email` attribute; `Optional[EmailStr]`, `None` when absent. -/
def Doc.email (d : Doc) : Option String :=
  match d.find "email" with
  | some (Value.str s) => some s
  | _ => Option.none

/-- The `hashed_password` attribute of a stored user document. -/
def Doc.hashed_password (d : Doc) : String :=
  match d.find "hashed_password" with
  | some (Value.str s) => s
  | _ => ""

/-- The Mongo users collection: documents in insertion order. -/
abbrev Store := List Doc

/-- `find_one({key: value})`: first document whose field matches. -/
def Store.find_one : Store → String → Value → Option Doc
  | [], _, _ => Option.none
  | d :: rest, k, v =>
    if d.find k = some v then some d else Store.find_one rest k v

/-- `update_one({"username": u}, {"$set": upd})`: apply `$set` to the first
matching document; the second component is `modified_count`, which counts
the document only if `$set` actually changed it (Mongo semantics). -/
def Store.update_one (upd : Doc) (u : String) : Store → Store × Nat
  | [] => ([], 0)
  | d :: rest =>
    if d.find "username" = some (Value.str u) then
      let d2 := Doc.applySet upd d
      (d2 :: rest, if d2 = d then 0 else 1)
    else
      let r := Store.update_one upd u rest
      (d :: r.1, r.2)

/-- `delete_one({"username": u})`: remove the first matching document; the
second component is whether `deleted_count > 0`. -/
def Store.delete_one (u : String) : Store → Store × Bool
  | [] => ([], false)
  | d :: rest =>
    if d.find "username" = some (Value.str u) then (rest, true)
    else
      let r := Store.delete_one u rest
      (d :: r.1, r.2)

namespace UserRepository

/-- The password-hashing step shared by `create_user` and `update_user`:
`if "password" in user_data: user_data["hashed_password"] =
pwd_context.hash(user_data.pop("password"))`.  Non-string passwords cannot
occur (pydantic types them `str`); they are left untouched here. -/
def hash_password_field (hash : String → String) (d : Doc) : Doc :=
  match d.find "password" with
  | some (Value.str p) =>
      Doc.insert "hashed_password" (Value.str (hash p)) (Doc.erase "password" d)
  | _ => d

/-- `UserRepository.get_user_by_username`. -/
def get_user_by_username (s : Store) (username : String) : Option Doc :=
  Store.find_one s "username" (Value.str username)

/-- `UserRepository.get_user_by_email`. -/
def get_user_by_email (s : Store) (email : String) : Option Doc :=
  Store.find_one s "email" (Value.str email)

/-- The document `UserRepository.create_user` inserts: password hashed,
then `role` defaulted to `"user"` and `disabled` to `False` when absent. -/
def create_doc (hash : String → String) (user_data : Doc) : Doc :=
  let d1 := hash_password_field hash user_data
  let d2 := if d1.find "role" = Option.none then Doc.insert "role" (Value.str "user") d1 else d1
  if d2.find "disabled" = Option.none then Doc.insert "disabled" (Value.bool false) d2 else d2

/-- `UserRepository.create_user`: prepare the document and `insert_one`. -/
def create_user (hash : String → String) (user_data : Doc) (s : Store) : Store :=
  s ++ [create_doc hash user_data]

/-- `UserRepository.update_user`: hash an included password, `$set` the
fields on the first matching document, return `modified_count > 0`. -/
def update_user (hash : String → String) (username : String) (user_data : Doc)
    (s : Store) : Store × Bool :=
  let upd := hash_password_field hash user_data
  let r := Store.update_one upd username s
  (r.1, r.2 > 0)

/-- `UserRepository.delete_user`: `delete_one`, return `deleted_count > 0`. -/
def delete_user (username : String) (s : Store) : Store × Bool :=
  Store.delete_one username s

/-- `UserRepository.verify_password`: symbolic model of `pwd_context.verify`
— re-derive the hash of the plaintext and compare with the stored hash. -/
def verify_password (hash : String → String) (plain hashed : String) : Bool :=
  hash plain = hashed

/-- The document `init_admin_user` passes to `create_user`. -/
def admin_doc (admin_username admin_password admin_email : String) : Doc :=
  [("username", Value.str admin_username),
   ("email", Value.str admin_email),
   ("password", Value.str admin_password),
   ("full_name", Value.str "Admin User"),
   ("role", Value.str "admin"),
   ("disabled", Value.bool false)]

/-- `UserRepository.init_admin_user`: create the admin account only when no
record with that username exists; returns whether it created one. -/
def init_admin_user (hash : String → String)
    (admin_username admin_password admin_email : String) (s : Store) :
    Store × Bool :=
  match get_user_by_username s admin_username with
  | some _ => (s, false)
  | Option.none =>
      (create_user hash (admin_doc admin_username admin_password admin_email) s, true)

end UserRepository

/-! ## JWT model -/

/-- The claim payload carried by an encoded token: `sub` and `role` from
the caller's `data` dict (each possibly absent), plus the `exp` timestamp
(epoch seconds) added by `create_access_token`. -/
structure Payload where
  sub : Option String
  role : Option String
  exp : Int
  deriving DecidableEq, Repr

/-- A signed token, symbolically: the payload together with the secret and
algorithm it was signed with.  Signature verification is modelled as
equality of secret and algorithm with the verifier's. -/
structure JWT where
  payload : Payload
  secret : String
  alg : String
  deriving DecidableEq, Repr

/-- The `data` dict passed to `create_access_token` by callers
(`{"sub": ..., "role": ...}`, either possibly missing). -/
structure TokenInput where
  sub : Option String
  role : Option String
  deriving DecidableEq, Repr

/-- `create_access_token(data, expires_delta)` at current time `now`
(epoch seconds), with `expires_delta` in seconds.  `if expires_delta:` is
Python truthiness, so a zero timedelta also falls back to the hardcoded
15-minute default. -/
def create_access_token (data : TokenInput) (expires_delta : Option Int)
    (now : Int) (secret alg : String) : JWT :=
  let exp :=
    match expires_delta with
    | some d => if d = 0 then now + 15 * 60 else now + d
    | Option.none => now + 15 * 60
  { payload := { sub := data.sub, role := data.role, exp := exp },
    secret := secret, alg := alg }

/-- Modelled from the spec: the external `jose.jwt.decode(token, key,
algorithms=[alg])` is not repository code; per the spec's Token Validator,
it fails when the signature does not match, the algorithm is unexpected,
or `exp` is in the past — "a token validated at or after its `exp`
timestamp fails ... validated strictly before, it succeeds". -/
def jwt_decode (tok : JWT) (secret alg : String) (now : Int) : Option Payload :=
  if tok.secret = secret ∧ tok.alg = alg ∧ now < tok.payload.exp then
    some tok.payload
  else
    Option.none

/-! ## Service dependency chain (auth service) -/

/-- `auth_service.get_current_user`: decode the token, require a `sub`
claim, then resolve the subject against the user store; every failure is
the 401 credentials exception.  Returns the stored user document. -/
def auth_get_current_user (tok : JWT) (secret alg : String) (now : Int)
    (s : Store) : Except Nat Doc :=
  match jwt_decode tok secret alg now with
  | Option.none => Except.error 401
  | some payload =>
    match payload.sub with
    | Option.none => Except.error 401
    | some username =>
      match UserRepository.get_user_by_username s username with
      | Option.none => Except.error 401
      | some user => Except.ok user

/-- `auth_service.get_current_active_user`: 400 when `disabled` is true. -/
def auth_get_current_active_user (tok : JWT) (secret alg : String) (now : Int)
    (s : Store) : Except Nat Doc :=
  match auth_get_current_user tok secret alg now s with
  | Except.error e => Except.error e
  | Except.ok user =>
    if user.find "disabled" = some (Value.bool true) then Except.error 400
    else Except.ok user

/-- `auth_service.get_admin_user`: 403 unless the resolved user document's
`role` attribute is `"admin"`. -/
def auth_get_admin_user (tok : JWT) (secret alg : String) (now : Int)
    (s : Store) : Except Nat Doc :=
  match auth_get_current_user tok secret alg now s with
  | Except.error e => Except.error e
  | Except.ok user =>
    if user.role ≠ "admin" then Except.error 403
    else Except.ok user

/-! ## Downstream validators (info service; the user service fallback is
textually identical) -/

/-- `info_service.get_current_user`: decode, require `sub`, return
`{"username": sub, "role": payload.get("role", "user")}` — no store
lookup. -/
def info_get_current_user (tok : JWT) (secret alg : String) (now : Int) :
    Except Nat (String × String) :=
  match jwt_decode tok secret alg now with
  | Option.none => Except.error 401
  | some payload =>
    match payload.sub with
    | Option.none => Except.error 401
    | some username => Except.ok (username, payload.role.getD "user")

/-- `info_service.get_admin_user`: 403 unless the role extracted from the
token is `"admin"`. -/
def info_get_admin_user (tok : JWT) (secret alg : String) (now : Int) :
    Except Nat (String × String) :=
  match info_get_current_user tok secret alg now with
  | Except.error e => Except.error e
  | Except.ok current =>
    if current.2 ≠ "admin" then Except.error 403
    else Except.ok current

/-! ## Pydantic request models -/

/-- `UserCreate`: `username`/`password` required; `email`, `full_name`
optional; `disabled` defaults to `False` (may be set to `null`); `role`
defaults to `"user"`. -/
structure UserCreate where
  username : String
  email : Option String
  full_name : Option String
  disabled : Option Bool
  role : String
  password : String
  deriving DecidableEq, Repr

/-- `user.dict()` for a `UserCreate`, in field-declaration order. -/
def UserCreate.dict (u : UserCreate) : Doc :=
  [("username", Value.str u.username),
   ("email", match u.email with | some e => Value.str e | Option.none => Value.none),
   ("full_name", match u.full_name with | some f => Value.str f | Option.none => Value.none),
   ("disabled", match u.disabled with | some b => Value.bool b | Option.none => Value.none),
   ("role", Value.str u.role),
   ("password", Value.str u.password)]

/-- `UserUpdate`: every field optional. -/
structure UserUpdate where
  email : Option String
  full_name : Option String
  password : Option String
  disabled : Option Bool
  role : Option String
  deriving DecidableEq, Repr

/-- `{k: v for k, v in user_update.dict().items() if v is not None}`:
the non-`None` fields, in field-declaration order. -/
def UserUpdate.update_data (u : UserUpdate) : Doc :=
  (match u.email with | some e => [("email", Value.str e)] | Option.none => [])
  ++ (match u.full_name with | some f => [("full_name", Value.str f)] | Option.none => [])
  ++ (match u.password with | some p => [("password", Value.str p)] | Option.none => [])
  ++ (match u.disabled with | some b => [("disabled", Value.bool b)] | Option.none => [])
  ++ (match u.role with | some r => [("role", Value.str r)] | Option.none => [])

/-! ## Endpoint handlers (auth service)

Each handler is a function from the pre-request store to a response
(`Except` over HTTP status codes) paired with the post-request store. -/

/-- `authenticate_user`: look the user up, verify the password against the
stored hash; `none` models the `False` returns. -/
def authenticate_user (hash : String → String) (username password : String)
    (s : Store) : Option Doc :=
  match UserRepository.get_user_by_username s username with
  | Option.none => Option.none
  | some user =>
    if UserRepository.verify_password hash password user.hashed_password then
      some user
    else
      Option.none

/-- `POST /token` (`login_for_access_token`): authenticate, then mint a
token for `{"sub": user.username, "role": user.role}` with an explicit
`expires_delta` of `ACCESS_TOKEN_EXPIRE_MINUTES` minutes
(`cfg_minutes`). -/
def login_for_access_token (hash : String → String) (username password : String)
    (cfg_minutes : Int) (now : Int) (secret alg : String) (s : Store) :
    Except Nat JWT :=
  match authenticate_user hash username password s with
  | Option.none => Except.error 401
  | some user =>
      Except.ok (create_access_token
        { sub := some user.username, role := some user.role }
        (some (cfg_minutes * 60)) now secret alg)

/-- `POST /users/` (`create_user` endpoint): 400 when the username or a
present email is already registered; otherwise insert the prepared
document and echo it back without the `password` key (201). -/
def create_user_endpoint (hash : String → String) (user : UserCreate)
    (s : Store) : Except Nat Doc × Store :=
  match UserRepository.get_user_by_username s user.username with
  | some _ => (Except.error 400, s)
  | Option.none =>
    let email_conflict :=
      match user.email with
      | some e => (UserRepository.get_user_by_email s e).isSome
      | Option.none => false
    if email_conflict then (Except.error 400, s)
    else
      let user_data := UserRepository.create_doc hash user.dict
      (Except.ok (user_data.filter (fun p => p.1 ≠ "password")),
       s ++ [user_data])

/-- `PUT /users/me/` (`update_user_me`) given the authenticated caller's
document `current`: skip when no field set; 400 when changing the email to
one already registered; 500 when `update_user` reports nothing modified;
otherwise re-read and return the updated record. -/
def update_user_me (hash : String → String) (upd : UserUpdate) (current : Doc)
    (s : Store) : Except Nat (Option Doc) × Store :=
  let ud := upd.update_data
  if ud = [] then
    (Except.ok (UserRepository.get_user_by_username s current.username), s)
  else
    let email_conflict :=
      match upd.email with
      | some e =>
        if some e ≠ current.email then
          (UserRepository.get_user_by_email s e).isSome
        else false
      | Option.none => false
    if email_conflict then (Except.error 400, s)
    else
      let r := UserRepository.update_user hash current.username ud s
      if r.2 then
        (Except.ok (UserRepository.get_user_by_username r.1 current.username), r.1)
      else
        (Except.error 500, r.1)

/-- `PUT /admin/users/{username}` (`admin_update_user`): 404 when the
target does not exist; otherwise like `update_user_me`, except the email
conflict is waived when the conflicting record is the target itself. -/
def admin_update_user (hash : String → String) (username : String)
    (upd : UserUpdate) (s : Store) : Except Nat (Option Doc) × Store :=
  match UserRepository.get_user_by_username s username with
  | Option.none => (Except.error 404, s)
  | some user_data =>
    let ud := upd.update_data
    if ud = [] then
      (Except.ok (UserRepository.get_user_by_username s username), s)
    else
      let email_conflict :=
        match upd.email with
        | some e =>
          if some e ≠ user_data.email then
            match UserRepository.get_user_by_email s e with
            | some existing => existing.username != username
            | Option.none => false
          else false
        | Option.none => false
      if email_conflict then (Except.error 400, s)
      else
        let r := UserRepository.update_user hash username ud s
        if r.2 then
          (Except.ok (UserRepository.get_user_by_username r.1 username), r.1)
        else
          (Except.error 500, r.1)

/-- `DELETE /admin/users/{username}` as deployed: the `get_admin_user`
dependency runs first, then the handler rejects deleting one's own
account (400) and otherwise deletes, 404 when no record existed. -/
def delete_user_endpoint (tok : JWT) (secret alg : String) (now : Int)
    (username : String) (s : Store) : Except Nat Unit × Store :=
  match auth_get_admin_user tok secret alg now s with
  | Except.error e => (Except.error e, s)
  | Except.ok current =>
    if username = current.username then (Except.error 400, s)
    else
      let r := UserRepository.delete_user username s
      if r.2 then (Except.ok (), r.1) else (Except.error 404, r.1)

/-! ## Invariant machinery and auxiliary definitions -/

/-- Inputs reaching the repository go through pydantic models that type
`password` as `str` (`UserCreate.password : str`,
`UserUpdate.password : Optional[str]` with `None` fields dropped), so a
present `password` field is always string-valued. -/
def PasswordTyped (d : Doc) : Prop :=
  ∀ v, d.find "password" = some v → ∃ p, v = Value.str p

/-- One repository write: the operations of `UserRepository` that change
the store. -/
inductive RepoStep (hash : String → String) : Store → Store → Prop
  | create (d : Doc) (s : Store) :
      PasswordTyped d → RepoStep hash s (UserRepository.create_user hash d s)
  | update (u : String) (d : Doc) (s : Store) :
      PasswordTyped d → RepoStep hash s (UserRepository.update_user hash u d s).1
  | delete (u : String) (s : Store) :
      RepoStep hash s (UserRepository.delete_user u s).1
  | init (au ap ae : String) (s : Store) :
      RepoStep hash s (UserRepository.init_admin_user hash au ap ae s).1

/-- Store states reachable from the empty collection by repository
writes. -/
def Reachable (hash : String → String) (s : Store) : Prop :=
  Relation.ReflTransGen (RepoStep hash) [] s

/-- No stored document carries a `password` key. -/
def StoreClean (s : Store) : Prop :=
  ∀ d ∈ s, d.find "password" = Option.none

/-- Number of stored documents whose `username` field is `u`. -/
def count_username (u : String) : Store → Nat
  | [] => 0
  | d :: rest =>
    (if d.find "username" = some (Value.str u) then 1 else 0) + count_username u rest

/-! ### Concrete fixtures for witnesses and counterexamples -/

/-- A concrete injective stand-in for the bcrypt hash. -/
def hashW : String → String := fun p => String.append "h:" p

/-- A stored regular user `alice`, as `create_user` would persist her. -/
def aliceDoc : Doc :=
  [("username", Value.str "alice"), ("email", Value.str "alice@example.com"),
   ("full_name", Value.none), ("disabled", Value.bool false),
   ("role", Value.str "user"), ("hashed_password", Value.str "h:pw")]

/-- A stored admin `root`. -/
def rootDoc : Doc :=
  [("username", Value.str "root"), ("email", Value.str "root@example.com"),
   ("full_name", Value.str "Admin User"), ("disabled", Value.bool false),
   ("role", Value.str "admin"), ("hashed_password", Value.str "h:rootpw")]

/-- A store holding `alice` (role `user`) and `root` (role `admin`). -/
def storeW : Store := [aliceDoc, rootDoc]

/-- A valid token for `alice` whose embedded role claim is `"admin"`,
although her stored role is `"user"`. -/
def tokAliceAdminClaim : JWT :=
  { payload := { sub := some "alice", role := some "admin", exp := 1000 },
    secret := "k", alg := "HS256" }

/-- A valid token for the admin `root`. -/
def tokRoot : JWT :=
  { payload := { sub := some "root", role := some "admin", exp := 1000 },
    secret := "k", alg := "HS256" }

/-! ## Association-list and store lemmas -/

theorem Doc.find_erase_self (k : String) (d : Doc) :
    (Doc.erase k d).find k = Option.none := by
  induction d with
  | nil => rfl
  | cons p rest ih =>
    by_cases h : p.1 = k
    · simpa [Doc.erase, List.filter_cons, h] using ih
    · simpa [Doc.erase, List.filter_cons, h, Doc.find] using ih

theorem Doc.find_insert_self (k : String) (v : Value) (d : Doc) :
    (Doc.insert k v d).find k = some v := by
  induction d with
  | nil => simp [Doc.insert, Doc.find]
  | cons p rest ih =>
    by_cases h : p.1 = k
    · simp [Doc.insert, h, Doc.find]
    · simp [Doc.insert, h, Doc.find, ih]

theorem Doc.find_insert_ne (k k' : String) (v : Value) (d : Doc) (h : k' ≠ k) :
    (Doc.insert k' v d).find k = d.find k := by
  induction d with
  | nil => simp [Doc.insert, Doc.find, h]
  | cons p rest ih =>
    by_cases hp : p.1 = k'
    · simp [Doc.insert, hp, Doc.find, h]
    · simp [Doc.insert, hp, Doc.find, ih]

theorem Doc.insert_of_find_eq (d : Doc) (k : String) (v : Value)
    (h : d.find k = some v) : Doc.insert k v d = d := by
  induction d with
  | nil => simp [Doc.find] at h
  | cons p rest ih =>
    by_cases hp : p.1 = k
    · simp [Doc.find, hp] at h
      simp [Doc.insert, hp, ← h, Prod.ext_iff]
    · simp [Doc.find, hp] at h
      simp [Doc.insert, hp, ih h]

theorem Doc.applySet_of_agrees (upd : Doc) (d : Doc)
    (h : ∀ p ∈ upd, d.find p.1 = some p.2) : Doc.applySet upd d = d := by
  induction upd with
  | nil => rfl
  | cons q rest ih =>
    have h1 : Doc.insert q.1 q.2 d = d :=
      Doc.insert_of_find_eq d q.1 q.2 (h q (List.mem_cons_self q rest))
    have h2 : Doc.applySet (q :: rest) d = Doc.applySet rest (Doc.insert q.1 q.2 d) := rfl
    rw [h2, h1]
    exact ih (fun p hp => h p (List.mem_cons_of_mem q hp))

theorem Doc.find_applySet_of_none (upd : Doc) (d : Doc) (k : String)
    (h : upd.find k = Option.none) : (Doc.applySet upd d).find k = d.find k := by
  induction upd generalizing d with
  | nil => rfl
  | cons q rest ih =>
    by_cases hq : q.1 = k
    · simp [Doc.find, hq] at h
    · simp [Doc.find, hq] at h
      have h2 : Doc.applySet (q :: rest) d = Doc.applySet rest (Doc.insert q.1 q.2 d) := rfl
      rw [h2, ih (Doc.insert q.1 q.2 d) h, Doc.find_insert_ne k q.1 q.2 d hq]

theorem Store.find_one_append_of_none (s : Store) (d : Doc) (k : String) (v : Value)
    (h : Store.find_one s k v = Option.none) :
    Store.find_one (s ++ [d]) k v =
      (if d.find k = some v then some d else Option.none) := by
  induction s with
  | nil => simp [Store.find_one]
  | cons d0 rest ih =>
    by_cases h0 : d0.find k = some v
    · simp [Store.find_one, h0] at h
    · simp [Store.find_one, h0] at h ⊢
      exact ih h

theorem Store.update_one_of_agrees (upd : Doc) (u : String) (s : Store) (d : Doc)
    (hfind : Store.find_one s "username" (Value.str u) = some d)
    (hagree : Doc.applySet upd d = d) :
    Store.update_one upd u s = (s, 0) := by
  induction s with
  | nil => simp [Store.find_one] at hfind
  | cons d0 rest ih =>
    by_cases h0 : d0.find "username" = some (Value.str u)
    · simp [Store.find_one, h0] at hfind
      subst hfind
      simp [Store.update_one, h0, hagree]
    · simp [Store.find_one, h0] at hfind
      simp [Store.update_one, h0, ih hfind]

theorem Store.delete_one_of_found (u : String) (s : Store) (d : Doc)
    (hfind : Store.find_one s "username" (Value.str u) = some d) :
    (Store.delete_one u s).2 = true ∧
    (Store.delete_one u s).1.length + 1 = s.length := by
  induction s with
  | nil => simp [Store.find_one] at hfind
  | cons d0 rest ih =>
    by_cases h0 : d0.find "username" = some (Value.str u)
    · simp [Store.delete_one, h0]
    · simp [Store.find_one, h0] at hfind
      have := ih hfind
      simp [Store.delete_one, h0, this.1]
      omega

theorem Store.mem_update_one (upd : Doc) (u : String) (s : Store) (d' : Doc)
    (h : d' ∈ (Store.update_one upd u s).1) :
    d' ∈ s ∨ ∃ d ∈ s, d' = Doc.applySet upd d := by
  induction s with
  | nil => simp [Store.update_one] at h
  | cons d0 rest ih =>
    by_cases h0 : d0.find "username" = some (Value.str u)
    · simp [Store.update_one, h0] at h
      rcases h with h | h
      · exact Or.inr ⟨d0, List.mem_cons_self d0 rest, h⟩
      · exact Or.inl (List.mem_cons_of_mem d0 h)
    · simp [Store.update_one, h0] at h
      rcases h with h | h
      · exact Or.inl (by simp [h])
      · rcases ih h with h' | ⟨d, hd, hd'⟩
        · exact Or.inl (List.mem_cons_of_mem d0 h')
        · exact Or.inr ⟨d, List.mem_cons_of_mem d0 hd, hd'⟩

theorem Store.mem_delete_one (u : String) (s : Store) (d' : Doc)
    (h : d' ∈ (Store.delete_one u s).1) : d' ∈ s := by
  induction s with
  | nil => simp [Store.delete_one] at h
  | cons d0 rest ih =>
    by_cases h0 : d0.find "username" = some (Value.str u)
    · simp [Store.delete_one, h0] at h
      exact List.mem_cons_of_mem d0 h
    · simp [Store.delete_one, h0] at h
      rcases h with h | h
      · simp [h]
      · exact List.mem_cons_of_mem d0 (ih h)

theorem count_username_append (u : String) (s t : Store) :
    count_username u (s ++ t) = count_username u s + count_username u t := by
  induction s with
  | nil => simp [count_username]
  | cons d rest ih => simp [count_username, ih]; omega

theorem count_username_zero_of_find_one_none (u : String) (s : Store)
    (h : Store.find_one s "username" (Value.str u) = Option.none) :
    count_username u s = 0 := by
  induction s with
  | nil => rfl
  | cons d rest ih =>
    by_cases h0 : d.find "username" = some (Value.str u)
    · simp [Store.find_one, h0] at h
    · simp [Store.find_one, h0] at h
      simp [count_username, h0, ih h]

/-! ## Secret-handling lemmas -/

theorem Doc.find_if_insert_ne (b : Prop) [Decidable b] (k0 k : String) (v : Value)
    (d : Doc) (hk : k ≠ k0) :
    (if b then Doc.insert k v d else d).find k0 = d.find k0 := by
  split
  · exact Doc.find_insert_ne k0 k v d hk
  · rfl

theorem hash_password_field_no_password (hash : String → String) (d : Doc)
    (hd : PasswordTyped d) :
    (UserRepository.hash_password_field hash d).find "password" = Option.none := by
  cases hfp : d.find "password" with
  | none => simp [UserRepository.hash_password_field, hfp]
  | some v =>
    obtain ⟨p, rfl⟩ := hd v hfp
    simp only [UserRepository.hash_password_field, hfp]
    rw [Doc.find_insert_ne "password" "hashed_password" _ _ (by decide)]
    exact Doc.find_erase_self "password" d

theorem hash_password_field_hashed (hash : String → String) (d : Doc) (p : String)
    (h : d.find "password" = some (Value.str p)) :
    (UserRepository.hash_password_field hash d).find "hashed_password"
      = some (Value.str (hash p)) := by
  simp only [UserRepository.hash_password_field, h]
  exact Doc.find_insert_self "hashed_password" (Value.str (hash p)) _

theorem create_doc_find_of_ne (hash : String → String) (d : Doc) (k0 : String)
    (h1 : "role" ≠ k0) (h2 : "disabled" ≠ k0) :
    (UserRepository.create_doc hash d).find k0
      = (UserRepository.hash_password_field hash d).find k0 := by
  simp only [UserRepository.create_doc]
  rw [Doc.find_if_insert_ne _ k0 "disabled" _ _ h2,
      Doc.find_if_insert_ne _ k0 "role" _ _ h1]

theorem create_doc_no_password (hash : String → String) (d : Doc)
    (hd : PasswordTyped d) :
    (UserRepository.create_doc hash d).find "password" = Option.none := by
  rw [create_doc_find_of_ne hash d "password" (by decide) (by decide)]
  exact hash_password_field_no_password hash d hd

theorem create_doc_hashed (hash : String → String) (d : Doc) (p : String)
    (h : d.find "password" = some (Value.str p)) :
    (UserRepository.create_doc hash d).find "hashed_password"
      = some (Value.str (hash p)) := by
  rw [create_doc_find_of_ne hash d "hashed_password" (by decide) (by decide)]
  exact hash_password_field_hashed hash d p h

theorem admin_doc_find_password (au ap ae : String) :
    (UserRepository.admin_doc au ap ae).find "password" = some (Value.str ap) := by
  simp [UserRepository.admin_doc, Doc.find]

theorem admin_doc_password_typed (au ap ae : String) :
    PasswordTyped (UserRepository.admin_doc au ap ae) := by
  intro v hv
  rw [admin_doc_find_password au ap ae] at hv
  exact ⟨ap, (Option.some.inj hv).symm⟩

theorem repo_step_clean (hash : String → String) {s s' : Store}
    (hclean : StoreClean s) (hstep : RepoStep hash s s') : StoreClean s' := by
  cases hstep with
  | create d s hd =>
    intro d' hd'
    rcases List.mem_append.mp hd' with h | h
    · exact hclean d' h
    · simp only [List.mem_singleton] at h
      subst h
      exact create_doc_no_password hash d hd
  | update u d s hd =>
    intro d' hd'
    rcases Store.mem_update_one _ u s d' hd' with h | ⟨d0, hd0, rfl⟩
    · exact hclean d' h
    · rw [Doc.find_applySet_of_none _ _ _ (hash_password_field_no_password hash d hd)]
      exact hclean d0 hd0
  | delete u s =>
    intro d' hd'
    exact hclean d' (Store.mem_delete_one u s d' hd')
  | init au ap ae s =>
    intro d' hd'
    cases hm : UserRepository.get_user_by_username s au with
    | some d0 =>
      simp only [UserRepository.init_admin_user, hm] at hd'
      exact hclean d' hd'
    | none =>
      simp only [UserRepository.init_admin_user, hm, UserRepository.create_user] at hd'
      rcases List.mem_append.mp hd' with h | h
      · exact hclean d' h
      · simp only [List.mem_singleton] at h
        subst h
        exact create_doc_no_password hash _ (admin_doc_password_typed au ap ae)

theorem reachable_clean (hash : String → String) (s : Store)
    (h : Reachable hash s) : StoreClean s := by
  induction h with
  | refl => intro d hd; simp at hd
  | tail h1 hstep ih => exact repo_step_clean hash ih hstep

theorem create_admin_doc_eq (hash : String → String) (au ap ae : String) :
    UserRepository.create_doc hash (UserRepository.admin_doc au ap ae) =
      [("username", Value.str au), ("email", Value.str ae),
       ("full_name", Value.str "Admin User"), ("role", Value.str "admin"),
       ("disabled", Value.bool false),
       ("hashed_password", Value.str (hash ap))] := by
  simp [UserRepository.create_doc, UserRepository.hash_password_field,
        UserRepository.admin_doc, Doc.erase, Doc.insert, Doc.find,
        List.filter]

theorem Store.find_one_matches (s : Store) (k : String) (v : Value) (d : Doc)
    (h : Store.find_one s k v = some d) : d.find k = some v := by
  induction s with
  | nil => simp [Store.find_one] at h
  | cons d0 rest ih =>
    by_cases h0 : d0.find k = some v
    · simp [Store.find_one, h0] at h
      rw [← h]
      exact h0
    · simp [Store.find_one, h0] at h
      exact ih h

theorem update_data_no_password (u : UserUpdate) (h : u.password = Option.none) :
    u.update_data.find "password" = Option.none := by
  unfold UserUpdate.update_data
  rw [h]
  cases u.email <;> cases u.full_name <;> cases u.disabled <;> cases u.role <;>
    simp [Doc.find]

theorem email_mem_update_data (u : UserUpdate) (e : String)
    (h : u.email = some e) : ("email", Value.str e) ∈ u.update_data := by
  unfold UserUpdate.update_data
  rw [h]
  simp

/-! ## Claim theorems -/

/-- C1: for every subject, role and positive ttl, validating a token
produced by `create_access_token` for claims `{sub, role}` at any time
strictly before the ttl has elapsed succeeds and returns exactly that
subject as username and that role, with the same process secret and
algorithm on both sides. -/
theorem token_issue_validate_round_trip (subj role : String) (ttl now t : Int)
    (secret alg : String) (hpos : 0 < ttl) (ht : t < now + ttl) :
    info_get_current_user
      (create_access_token { sub := some subj, role := some role } (some ttl)
        now secret alg)
      secret alg t = Except.ok (subj, role) := by
  have hne : ttl ≠ 0 := by omega
  simp [create_access_token, info_get_current_user, jwt_decode, hne, ht]

/-- Witness for C1 at subject `alice`, role `user`, ttl 60 s, checked at
t = 59 s. -/
theorem token_issue_validate_round_trip_witness :
    (0 : Int) < 60 ∧ (59 : Int) < 0 + 60 ∧
    info_get_current_user
      (create_access_token { sub := some "alice", role := some "user" }
        (some 60) 0 "k" "HS256")
      "k" "HS256" 59 = Except.ok ("alice", "user") :=
  ⟨by decide, by decide,
   token_issue_validate_round_trip "alice" "user" 60 0 59 "k" "HS256"
     (by decide) (by decide)⟩

/-- C2 counterexample: with the configured default of 30 minutes
(`ACCESS_TOKEN_EXPIRE_MINUTES`), issuing without `expires_delta` at
`now = 0` sets `exp` to 900 s (the hardcoded 15-minute fallback), not
`0 + 30 * 60`. -/
theorem default_expiry_counterexample :
    (create_access_token { sub := some "alice", role := some "user" }
        Option.none 0 "k" "HS256").payload.exp = 900 ∧
    (900 : Int) ≠ 0 + 30 * 60 :=
  ⟨rfl, by decide⟩

/-- C2 amended: when no `expires_delta` is passed, `create_access_token`
uses a hardcoded 15-minute default; the configured
`ACCESS_TOKEN_EXPIRE_MINUTES` reaches tokens only because the login
endpoint always passes it explicitly as `expires_delta` (any nonzero
configured number of minutes). -/
theorem default_expiry_amended (data : TokenInput) (now : Int)
    (secret alg : String) (hash : String → String) (u p : String) (cfg : Int)
    (s : Store) (tok : JWT) (hcfg : cfg ≠ 0) :
    (create_access_token data Option.none now secret alg).payload.exp
      = now + 15 * 60 ∧
    (login_for_access_token hash u p cfg now secret alg s = Except.ok tok →
      tok.payload.exp = now + cfg * 60) := by
  constructor
  · rfl
  · intro hlogin
    unfold login_for_access_token at hlogin
    cases hauth : authenticate_user hash u p s with
    | none => rw [hauth] at hlogin; cases hlogin
    | some user =>
      rw [hauth] at hlogin
      have htok := (Except.ok.injEq _ _).mp hlogin
      have h60 : cfg * 60 ≠ 0 := mul_ne_zero hcfg (by decide)
      rw [← htok]
      simp [create_access_token, h60]

/-- Witness for C2's amended claim: a concrete default-expiry token and a
concrete successful login with `cfg = 30` minutes. -/
theorem default_expiry_amended_witness :
    (create_access_token { sub := some "x", role := Option.none }
        Option.none 5 "k" "HS256").payload.exp = 5 + 15 * 60 ∧
    ({ payload := { sub := some "alice", role := some "user", exp := 1800 },
       secret := "k", alg := "HS256" } : JWT).payload.exp = 0 + 30 * 60 :=
  have h1 := default_expiry_amended { sub := some "x", role := Option.none }
    5 "k" "HS256" hashW "alice" "pw" 30 storeW
    { payload := { sub := some "alice", role := some "user", exp := 1800 },
      secret := "k", alg := "HS256" } (by decide)
  have h2 := default_expiry_amended { sub := some "x", role := Option.none }
    0 "k" "HS256" hashW "alice" "pw" 30 storeW
    { payload := { sub := some "alice", role := some "user", exp := 1800 },
      secret := "k", alg := "HS256" } (by decide)
  ⟨h1.1, h2.2 (by rfl)⟩

/-- C4: a token with a correct signature and algorithm validated at or
after its `exp` fails with the 401 invalid-credentials result; validated
strictly before `exp`, with a present `sub`, it succeeds. -/
theorem token_expiry_boundary (tok : JWT) (secret alg : String) (t : Int)
    (u : String) (hs : tok.secret = secret) (ha : tok.alg = alg)
    (hsub : tok.payload.sub = some u) :
    (tok.payload.exp ≤ t →
      info_get_current_user tok secret alg t = Except.error 401) ∧
    (t < tok.payload.exp →
      info_get_current_user tok secret alg t
        = Except.ok (u, tok.payload.role.getD "user")) := by
  constructor
  · intro h
    have hnot : ¬ t < tok.payload.exp := by omega
    simp [info_get_current_user, jwt_decode, hs, ha, hnot]
  · intro h
    simp [info_get_current_user, jwt_decode, hs, ha, h, hsub]

/-- Witness for C4: a concrete token checked exactly at, after, and just
before its expiry. -/
theorem token_expiry_boundary_witness :
    info_get_current_user tokRoot "k" "HS256" 1000 = Except.error 401 ∧
    info_get_current_user tokRoot "k" "HS256" 1500 = Except.error 401 ∧
    info_get_current_user tokRoot "k" "HS256" 999 = Except.ok ("root", "admin") :=
  have h := token_expiry_boundary tokRoot "k" "HS256" 1000 "root" rfl rfl rfl
  have h2 := token_expiry_boundary tokRoot "k" "HS256" 1500 "root" rfl rfl rfl
  have h3 := token_expiry_boundary tokRoot "k" "HS256" 999 "root" rfl rfl rfl
  ⟨h.1 (by decide), h2.1 (by decide), h3.2 (by decide)⟩

/-- C9: a valid, unexpired token with a present `sub` naming an existing
user but no `role` claim at all is not rejected: the downstream validator
succeeds with the role defaulting to `"user"`, and the auth service's
`get_current_user` succeeds with the stored user. -/
theorem missing_role_claim_defaults_to_user (tok : JWT) (secret alg : String)
    (now : Int) (s : Store) (u : String) (d : Doc)
    (hs : tok.secret = secret) (ha : tok.alg = alg)
    (hexp : now < tok.payload.exp) (hsub : tok.payload.sub = some u)
    (hrole : tok.payload.role = Option.none)
    (hd : UserRepository.get_user_by_username s u = some d) :
    info_get_current_user tok secret alg now = Except.ok (u, "user") ∧
    auth_get_current_user tok secret alg now s = Except.ok d := by
  constructor
  · simp [info_get_current_user, jwt_decode, hs, ha, hexp, hsub, hrole]
  · simp [auth_get_current_user, jwt_decode, hs, ha, hexp, hsub, hd]

/-- Witness for C9: a concrete role-less token for the stored `alice`. -/
theorem missing_role_claim_defaults_to_user_witness :
    info_get_current_user
      { payload := { sub := some "alice", role := Option.none, exp := 1000 },
        secret := "k", alg := "HS256" } "k" "HS256" 0 = Except.ok ("alice", "user") ∧
    auth_get_current_user
      { payload := { sub := some "alice", role := Option.none, exp := 1000 },
        secret := "k", alg := "HS256" } "k" "HS256" 0 storeW = Except.ok aliceDoc :=
  missing_role_claim_defaults_to_user
    { payload := { sub := some "alice", role := Option.none, exp := 1000 },
      secret := "k", alg := "HS256" }
    "k" "HS256" 0 storeW "alice" aliceDoc rfl rfl (by decide) rfl rfl (by rfl)

/-- C5: no persisted record keeps a plaintext password.  For every create
and every update document (pydantic types `password` as a string), the
prepared document has the `password` key removed; when a plaintext
password was included, `hashed_password` holds its one-way hash; and no
store state reachable by repository writes from the empty collection
contains a `password` key. -/
theorem plaintext_password_never_persisted (hash : String → String) :
    (∀ d : Doc, PasswordTyped d →
      (UserRepository.create_doc hash d).find "password" = Option.none ∧
      (UserRepository.hash_password_field hash d).find "password" = Option.none) ∧
    (∀ (d : Doc) (p : String), d.find "password" = some (Value.str p) →
      (UserRepository.create_doc hash d).find "hashed_password"
        = some (Value.str (hash p)) ∧
      (UserRepository.hash_password_field hash d).find "hashed_password"
        = some (Value.str (hash p))) ∧
    (∀ s : Store, Reachable hash s → StoreClean s) :=
  ⟨fun d hd => ⟨create_doc_no_password hash d hd,
                hash_password_field_no_password hash d hd⟩,
   fun d p hp => ⟨create_doc_hashed hash d p hp,
                  hash_password_field_hashed hash d p hp⟩,
   fun s hs => reachable_clean hash s hs⟩

/-- A concrete registration document for the C5 witness. -/
def dW : Doc := [("username", Value.str "bob"), ("password", Value.str "pw")]

/-- Witness for C5: a concrete create document and a concrete reachable
store (one bootstrap step from empty). -/
theorem plaintext_password_never_persisted_witness :
    (UserRepository.create_doc hashW dW).find "password" = Option.none ∧
    (UserRepository.create_doc hashW dW).find "hashed_password"
      = some (Value.str (hashW "pw")) ∧
    StoreClean (UserRepository.init_admin_user hashW "admin" "secret" "a@e" []).1 :=
  have h := plaintext_password_never_persisted hashW
  ⟨(h.1 dW (by intro v hv; simp [dW, Doc.find] at hv; exact ⟨"pw", hv.symm⟩)).1,
   (h.2.1 dW "pw" (by simp [dW, Doc.find])).1,
   h.2.2 _ (Relation.ReflTransGen.tail Relation.ReflTransGen.refl
     (RepoStep.init "admin" "secret" "a@e" []))⟩

/-- C7: `init_admin_user` is idempotent.  A second call on the state left
by the first call changes nothing and reports that it created nothing,
and starting from a store without that username the first call creates
exactly one record with that username, whose role is `admin`. -/
theorem bootstrap_admin_idempotent (hash : String → String)
    (au ap ae : String) (s : Store) :
    (UserRepository.init_admin_user hash au ap ae
        (UserRepository.init_admin_user hash au ap ae s).1).1
      = (UserRepository.init_admin_user hash au ap ae s).1 ∧
    (UserRepository.init_admin_user hash au ap ae
        (UserRepository.init_admin_user hash au ap ae s).1).2 = false ∧
    (UserRepository.get_user_by_username s au = Option.none →
      count_username au (UserRepository.init_admin_user hash au ap ae s).1 = 1 ∧
      ∃ d, UserRepository.get_user_by_username
             (UserRepository.init_admin_user hash au ap ae s).1 au = some d ∧
           d.role = "admin") := by
  cases hm : UserRepository.get_user_by_username s au with
  | some d0 =>
    refine ⟨?_, ?_, ?_⟩
    · simp [UserRepository.init_admin_user, hm]
    · simp [UserRepository.init_admin_user, hm]
    · intro h
      exact Option.noConfusion h
  | none =>
    have hdoc : (UserRepository.create_doc hash
        (UserRepository.admin_doc au ap ae)).find "username"
          = some (Value.str au) := by
      rw [create_admin_doc_eq]
      simp [Doc.find]
    have hfound : UserRepository.get_user_by_username
        (UserRepository.create_user hash (UserRepository.admin_doc au ap ae) s) au
          = some (UserRepository.create_doc hash (UserRepository.admin_doc au ap ae)) := by
      unfold UserRepository.get_user_by_username UserRepository.create_user
      unfold UserRepository.get_user_by_username at hm
      rw [Store.find_one_append_of_none s _ "username" (Value.str au) hm]
      simp [hdoc]
    refine ⟨?_, ?_, ?_⟩
    · simp [UserRepository.init_admin_user, hm, hfound]
    · simp [UserRepository.init_admin_user, hm, hfound]
    · intro _
      have hzero : count_username au s = 0 :=
        count_username_zero_of_find_one_none au s hm
      constructor
      · simp only [UserRepository.init_admin_user, hm, UserRepository.create_user]
        rw [count_username_append]
        simp [hzero, count_username, hdoc]
      · refine ⟨UserRepository.create_doc hash (UserRepository.admin_doc au ap ae), ?_, ?_⟩
        · simp [UserRepository.init_admin_user, hm, hfound]
        · rw [create_admin_doc_eq]
          simp [Doc.role, Doc.find]

/-- Witness for C7: bootstrapping from the empty store, then again. -/
theorem bootstrap_admin_idempotent_witness :
    (UserRepository.init_admin_user hashW "admin" "pw" "a@e"
        (UserRepository.init_admin_user hashW "admin" "pw" "a@e" []).1).1
      = (UserRepository.init_admin_user hashW "admin" "pw" "a@e" []).1 ∧
    count_username "admin" (UserRepository.init_admin_user hashW "admin" "pw" "a@e" []).1 = 1 :=
  have h := bootstrap_admin_idempotent hashW "admin" "pw" "a@e" []
  ⟨h.1, (h.2.2 (by rfl)).1⟩

/-- C3 counterexample: `alice`'s token embeds role `"admin"`, yet the auth
service's `get_admin_user` rejects her with 403 because her stored record
says `"user"` — so the value compared there is not the token's embedded
role. -/
theorem role_check_source_counterexample :
    tokAliceAdminClaim.payload.role = some "admin" ∧
    auth_get_admin_user tokAliceAdminClaim "k" "HS256" 0 storeW
      = Except.error 403 :=
  ⟨rfl, rfl⟩

/-- C3 amended: the info service (and the user service fallback) compare
the role embedded in the token; the auth service's `get_admin_user`
instead compares the role of the user record re-read from the store at
request time. -/
theorem role_check_source_amended (tok : JWT) (secret alg : String)
    (now : Int) (s : Store) (u : String) (d : Doc)
    (hs : tok.secret = secret) (ha : tok.alg = alg)
    (hexp : now < tok.payload.exp) (hsub : tok.payload.sub = some u)
    (hd : UserRepository.get_user_by_username s u = some d) :
    (auth_get_admin_user tok secret alg now s = Except.ok d ↔ d.role = "admin") ∧
    (info_get_admin_user tok secret alg now
        = Except.ok (u, tok.payload.role.getD "user")
      ↔ tok.payload.role.getD "user" = "admin") := by
  constructor
  · simp only [auth_get_admin_user, auth_get_current_user, jwt_decode,
      hs, ha, hexp, hsub, hd, and_true, true_and, if_pos, lt_iff_lt_of_le_iff_le]
    by_cases hr : d.role = "admin" <;> simp [jwt_decode, hexp, hr]
  · simp only [info_get_admin_user, info_get_current_user, jwt_decode,
      hs, ha, hexp, hsub]
    by_cases hr : tok.payload.role.getD "user" = "admin" <;>
      simp [jwt_decode, hexp, hsub, hr]

/-- Witness for C3's amended claim: the admin `root` passes both guards;
`alice` with an admin-claim token passes only the token-based guard. -/
theorem role_check_source_amended_witness :
    (auth_get_admin_user tokRoot "k" "HS256" 0 storeW = Except.ok rootDoc
      ↔ rootDoc.role = "admin") ∧
    (info_get_admin_user tokAliceAdminClaim "k" "HS256" 0
        = Except.ok ("alice", tokAliceAdminClaim.payload.role.getD "user")
      ↔ tokAliceAdminClaim.payload.role.getD "user" = "admin") :=
  have h1 := role_check_source_amended tokRoot "k" "HS256" 0 storeW "root"
    rootDoc rfl rfl (by decide) rfl (by rfl)
  have h2 := role_check_source_amended tokAliceAdminClaim "k" "HS256" 0 storeW
    "alice" aliceDoc rfl rfl (by decide) rfl (by rfl)
  ⟨h1.1, h2.2⟩

/-- C8 counterexample: the authenticated caller `alice` (stored role
`user`, token even claiming `admin`) deleting her own username is
rejected with 403 by the admin guard, not with the claimed 400. -/
theorem self_delete_counterexample :
    delete_user_endpoint tokAliceAdminClaim "k" "HS256" 0 "alice" storeW
      = (Except.error 403, storeW) ∧ (403 : Nat) ≠ 400 :=
  ⟨rfl, by decide⟩

/-- C8 amended: only callers who pass the admin guard reach the
self-deletion check: a caller whose stored role is not `admin` is
rejected with 403 before it; a caller with stored role `admin` deleting
their own username gets 400 with the store unchanged, even with a valid
admin token; and an admin deleting a different, existing username
succeeds, removing one record. -/
theorem self_delete_amended (tok : JWT) (secret alg : String) (now : Int)
    (s : Store) (current : Doc) (target : String)
    (hcur : auth_get_current_user tok secret alg now s = Except.ok current) :
    (current.role ≠ "admin" →
      delete_user_endpoint tok secret alg now target s = (Except.error 403, s)) ∧
    (current.role = "admin" → target = current.username →
      delete_user_endpoint tok secret alg now target s = (Except.error 400, s)) ∧
    (current.role = "admin" → target ≠ current.username →
      ∀ d, UserRepository.get_user_by_username s target = some d →
        (delete_user_endpoint tok secret alg now target s).1 = Except.ok () ∧
        (delete_user_endpoint tok secret alg now target s).2.length + 1
          = s.length) := by
  refine ⟨?_, ?_, ?_⟩
  · intro hr
    simp [delete_user_endpoint, auth_get_admin_user, hcur, hr]
  · intro hr ht
    simp [delete_user_endpoint, auth_get_admin_user, hcur, hr, ht]
  · intro hr ht d hd
    have hdel := Store.delete_one_of_found target s d hd
    constructor
    · simp [delete_user_endpoint, auth_get_admin_user, hcur, hr, ht,
        UserRepository.delete_user, hdel.1]
    · simp [delete_user_endpoint, auth_get_admin_user, hcur, hr, ht,
        UserRepository.delete_user, hdel.1]
      omega

/-- Witness for C8's amended claim: `root` self-deleting gets 400;
`root` deleting `alice` succeeds; `alice` self-deleting gets 403. -/
theorem self_delete_amended_witness :
    delete_user_endpoint tokRoot "k" "HS256" 0 "root" storeW
      = (Except.error 400, storeW) ∧
    (delete_user_endpoint tokRoot "k" "HS256" 0 "alice" storeW).1
      = Except.ok () ∧
    delete_user_endpoint tokAliceAdminClaim "k" "HS256" 0 "alice" storeW
      = (Except.error 403, storeW) :=
  have h1 := self_delete_amended tokRoot "k" "HS256" 0 storeW rootDoc "root"
    (by rfl)
  have h2 := self_delete_amended tokRoot "k" "HS256" 0 storeW rootDoc "alice"
    (by rfl)
  have h3 := self_delete_amended tokAliceAdminClaim "k" "HS256" 0 storeW
    aliceDoc "alice" (by rfl)
  ⟨h1.2.1 (by rfl) (by rfl),
   (h2.2.2 (by rfl) (by decide) aliceDoc (by rfl)).1,
   h3.1 (by decide)⟩

/-- C6: registration fails with 400 and leaves the store unchanged when
the username, or a present email, is already registered; otherwise it
succeeds (201), inserting the prepared record and echoing the created
identity with no `password` field. -/
theorem register_conflict_or_created (hash : String → String)
    (user : UserCreate) (s : Store) :
    ((UserRepository.get_user_by_username s user.username).isSome →
      create_user_endpoint hash user s = (Except.error 400, s)) ∧
    (∀ e, user.email = some e →
      (UserRepository.get_user_by_email s e).isSome →
      create_user_endpoint hash user s = (Except.error 400, s)) ∧
    (UserRepository.get_user_by_username s user.username = Option.none →
      (∀ e, user.email = some e →
        UserRepository.get_user_by_email s e = Option.none) →
      create_user_endpoint hash user s =
        (Except.ok ((UserRepository.create_doc hash user.dict).filter
            (fun p => p.1 ≠ "password")),
         s ++ [UserRepository.create_doc hash user.dict]) ∧
      Doc.find ((UserRepository.create_doc hash user.dict).filter
          (fun p => p.1 ≠ "password")) "password" = Option.none) := by
  refine ⟨?_, ?_, ?_⟩
  · intro h
    obtain ⟨d, hd⟩ := Option.isSome_iff_exists.mp h
    simp [create_user_endpoint, hd]
  · intro e he hee
    cases hu : UserRepository.get_user_by_username s user.username with
    | some d => simp [create_user_endpoint, hu]
    | none =>
      obtain ⟨d, hd⟩ := Option.isSome_iff_exists.mp hee
      simp [create_user_endpoint, hu, he, hd]
  · intro hu hee
    constructor
    · cases he : user.email with
      | none => simp [create_user_endpoint, hu, he]
      | some e => simp [create_user_endpoint, hu, he, hee e he]
    · exact Doc.find_erase_self "password" _

/-- A registration attempt colliding with the stored `alice`. -/
def uAliceW : UserCreate :=
  { username := "alice", email := Option.none, full_name := Option.none,
    disabled := some false, role := "user", password := "pw" }

/-- A fresh registration for `bob`. -/
def uBobW : UserCreate :=
  { username := "bob", email := some "bob@example.com",
    full_name := some "Bob", disabled := some false, role := "user",
    password := "bobpw" }

/-- Witness for C6: a duplicate-username registration is refused, a fresh
one is persisted. -/
theorem register_conflict_or_created_witness :
    create_user_endpoint hashW uAliceW storeW = (Except.error 400, storeW) ∧
    create_user_endpoint hashW uBobW storeW
      = (Except.ok ((UserRepository.create_doc hashW uBobW.dict).filter
            (fun p => p.1 ≠ "password")),
         storeW ++ [UserRepository.create_doc hashW uBobW.dict]) :=
  have h1 := register_conflict_or_created hashW uAliceW storeW
  have h2 := register_conflict_or_created hashW uBobW storeW
  ⟨h1.1 (by rfl),
   (h2.2.2 (by rfl) (fun e he => by injection he with h; subst h; rfl)).1⟩

/-- C10: updating an existing user with a non-empty set of fields whose
values all equal the stored ones matches but modifies nothing, so
`update_user` returns `false` and both update endpoints answer 500 even
though the record already equals the requested state. -/
theorem noop_update_reports_500 (hash : String → String) (upd : UserUpdate)
    (u : String) (d : Doc) (s : Store)
    (hfind : UserRepository.get_user_by_username s u = some d)
    (hne : upd.update_data ≠ [])
    (hpw : upd.password = Option.none)
    (hagree : ∀ p ∈ upd.update_data, d.find p.1 = some p.2) :
    UserRepository.update_user hash u upd.update_data s = (s, false) ∧
    update_user_me hash upd d s = (Except.error 500, s) ∧
    admin_update_user hash u upd s = (Except.error 500, s) := by
  have hmatch : d.find "username" = some (Value.str u) :=
    Store.find_one_matches s "username" (Value.str u) d hfind
  have husername : d.username = u := by simp [Doc.username, hmatch]
  have hupd_pw : upd.update_data.find "password" = Option.none :=
    update_data_no_password upd hpw
  have hprep : UserRepository.hash_password_field hash upd.update_data
      = upd.update_data := by
    simp [UserRepository.hash_password_field, hupd_pw]
  have happly : Doc.applySet upd.update_data d = d :=
    Doc.applySet_of_agrees upd.update_data d hagree
  have hupdone : Store.update_one upd.update_data u s = (s, 0) :=
    Store.update_one_of_agrees upd.update_data u s d hfind happly
  have hupdate : UserRepository.update_user hash u upd.update_data s
      = (s, false) := by
    simp [UserRepository.update_user, hprep, hupdone]
  refine ⟨hupdate, ?_, ?_⟩
  · unfold update_user_me
    rw [if_neg hne]
    cases he : upd.email with
    | none => simp [he, husername, hupdate]
    | some e =>
      have hde : d.find "email" = some (Value.str e) :=
        hagree ("email", Value.str e) (email_mem_update_data upd e he)
      have hemail : d.email = some e := by simp [Doc.email, hde]
      simp [he, hemail, husername, hupdate]
  · simp only [admin_update_user, hfind]
    rw [if_neg hne]
    cases he : upd.email with
    | none => simp [he, hupdate]
    | some e =>
      have hde : d.find "email" = some (Value.str e) :=
        hagree ("email", Value.str e) (email_mem_update_data upd e he)
      have hemail : d.email = some e := by simp [Doc.email, hde]
      simp [he, hemail, hupdate]

/-- The no-op update for the C10 witness: set `alice`'s email to the
value it already has. -/
def updW : UserUpdate :=
  { email := some "alice@example.com", full_name := Option.none,
    password := Option.none, disabled := Option.none, role := Option.none }

/-- Witness for C10: both endpoints answer 500 on the concrete no-op
update of `alice`. -/
theorem noop_update_reports_500_witness :
    update_user_me hashW updW aliceDoc storeW = (Except.error 500, storeW) ∧
    admin_update_user hashW "alice" updW storeW = (Except.error 500, storeW) :=
  have h := noop_update_reports_500 hashW updW "alice" aliceDoc storeW
    (by rfl) (by decide) rfl (by decide)
  ⟨h.2.1, h.2.2⟩

end CESIzen
